import Mathlib

/-!
Verification of `scripts/fetch_runs.py` (GitHub Actions run/job report generator).

The Python source is shallowly embedded: pure functions become Lean functions,
HTTP responses become explicit oracle functions (one response per attempt or per
page), the `asyncio.gather(..., return_exceptions=True)` job enrichment becomes
an `Except`-valued fetch oracle, and the artifact-writing driver becomes a pure
function returning the artifacts it would write.
-/

namespace FetchRuns

/-- Python truthiness of an optional string: `None` and `""` are falsy
(used for `job.get("runner_name")` and header values). -/
def pyTruthyStr : Option String → Bool
  | none => false
  | some s => s ≠ ""

/-- One GitHub Actions job, as consumed by `infer_queued_reason`:
`job.get("status")` and `job.get("runner_name")` (either key may be absent). -/
structure Job where
  status : Option String := none
  runner_name : Option String := none
deriving DecidableEq

/-- One workflow run, with exactly the fields `process_repo` reads off the
API object via `r.get(...)`; `actor_login` models `(r.get("actor") or {}).get("login")`. -/
structure Run where
  id : Nat := 0
  name : Option String := none
  workflow_id : Option Nat := none
  head_branch : Option String := none
  head_sha : Option String := none
  event : Option String := none
  status : Option String := none
  conclusion : Option String := none
  created_at : Option String := none
  run_started_at : Option String := none
  updated_at : Option String := none
  actor_login : Option String := none
  html_url : Option String := none
deriving DecidableEq

/-- Predicate of the two generator expressions in `infer_queued_reason`:
`job.get("status") == "queued" and not job.get("runner_name")`. -/
def awaitingJob (job : Job) : Bool :=
  job.status == some "queued" && !pyTruthyStr job.runner_name

/-- Embedding of `infer_queued_reason(run, jobs)`:
`if run.get("status") == "queued":` then, when `jobs` is non-empty,
`all(...)` yields `"no_available_runner"`, else `any(...)` yields
`"runner_capacity"`; every remaining queued case (including empty `jobs`)
returns `"unknown_or_concurrency"`; non-queued runs return `None`. -/
def infer_queued_reason (run : Run) (jobs : List Job) : Option String :=
  if run.status == some "queued" then
    if !jobs.isEmpty && jobs.all awaitingJob then some "no_available_runner"
    else if !jobs.isEmpty && jobs.any awaitingJob then some "runner_capacity"
    else some "unknown_or_concurrency"
  else none

/-- An HTTP error raised by `r.raise_for_status()`: carries the response's
status code and body. -/
structure HttpError where
  status : Nat
  body : String
deriving DecidableEq

/-- The subset selection in `process_repo`:
`[r for r in runs if r.get("status") in ("queued", "in_progress")]`. -/
def detail_runs (runs : List Run) : List Run :=
  runs.filter (fun r => r.status == some "queued" || r.status == some "in_progress")

/-- The `jobs_map` dict comprehension in `process_repo`: one `(run id, jobs)`
entry per detail run whose `fetch_jobs_for_run` task did not raise
(`asyncio.gather(..., return_exceptions=True)` turns a raised exception into a
skipped entry). `fetchJobs` is the per-run-id outcome oracle. -/
def jobs_map (runs : List Run) (fetchJobs : Nat → Except Unit (List Job)) :
    List (Nat × List Job) :=
  (detail_runs runs).filterMap (fun r =>
    match fetchJobs r.id with
    | .ok js => some (r.id, js)
    | .error _ => none)

/-- Python `dict` built from an insertion sequence: `.get(k)` returns the value
of the last insertion with key `k`, or `None`. -/
def dictGet (m : List (Nat × List Job)) (k : Nat) : Option (List Job) :=
  (m.reverse.find? (fun p => p.1 == k)).map (fun p => p.2)

/-- One row of the `rows` list built in `process_repo` (the structured dump). -/
structure ReportRow where
  org_repo : String := ""
  workflow_run_id : Nat := 0
  workflow_name : Option String := none
  workflow_id : Option Nat := none
  head_branch : Option String := none
  head_sha : Option String := none
  event : Option String := none
  status : Option String := none
  conclusion : Option String := none
  created_at : Option String := none
  run_started_at : Option String := none
  updated_at : Option String := none
  actor : Option String := none
  html_url : Option String := none
  jobs : Option (List Job) := none
  queued_reason_inferred : Option String := none
deriving DecidableEq

/-- Body of the row-building loop in `process_repo`: `jobs = jobs_map.get(rid)`,
`inferred = infer_queued_reason(r, jobs or [])`, then the row dict literal. -/
def buildRow (owner repo : String) (jm : List (Nat × List Job)) (r : Run) : ReportRow :=
  let jobs := dictGet jm r.id
  { org_repo := owner ++ "/" ++ repo
    workflow_run_id := r.id
    workflow_name := r.name
    workflow_id := r.workflow_id
    head_branch := r.head_branch
    head_sha := r.head_sha
    event := r.event
    status := r.status
    conclusion := r.conclusion
    created_at := r.created_at
    run_started_at := r.run_started_at
    updated_at := r.updated_at
    actor := r.actor_login
    html_url := r.html_url
    jobs := jobs
    queued_reason_inferred := infer_queued_reason r (jobs.getD []) }

/-- The `for r in runs: rows.append({...})` loop: one row per fetched run, in
input order. -/
def assemble (owner repo : String) (jm : List (Nat × List Job)) (runs : List Run) :
    List ReportRow :=
  runs.map (buildRow owner repo jm)

/-- One record of the DataFrame built in `process_repo` (the tabular artifact). -/
structure TabRow where
  org_repo : String := ""
  workflow_run_id : Nat := 0
  workflow_name : Option String := none
  head_branch : Option String := none
  event : Option String := none
  status : Option String := none
  conclusion : Option String := none
  created_at : Option String := none
  updated_at : Option String := none
  actor : Option String := none
  jobs_count : Option Nat := none
  queued_reason_inferred : Option String := none
  html_url : Option String := none
deriving DecidableEq

/-- The DataFrame record comprehension: note `jobs_count` is
`len(r["jobs"]) if r["jobs"] else None` — a `None` or empty job list is falsy,
so both yield `None`. -/
def toTabularRecord (row : ReportRow) : TabRow :=
  { org_repo := row.org_repo
    workflow_run_id := row.workflow_run_id
    workflow_name := row.workflow_name
    head_branch := row.head_branch
    event := row.event
    status := row.status
    conclusion := row.conclusion
    created_at := row.created_at
    updated_at := row.updated_at
    actor := row.actor
    jobs_count :=
      match row.jobs with
      | some js => if js.isEmpty then none else some js.length
      | none => none
    queued_reason_inferred := row.queued_reason_inferred
    html_url := row.html_url }

/-- Grouping key of `df.groupby(["status","conclusion"])`: pandas `groupby`
drops rows whose key contains a null (`dropna=True` default), so a row enters
a group only when both `status` and `conclusion` are present. -/
def summaryKey (t : TabRow) : Option (String × String) :=
  match t.status, t.conclusion with
  | some s, some c => some (s, c)
  | _, _ => none

/-- Embedding of `df.groupby(["status","conclusion"]).size()`: one
`(key, size)` entry per distinct non-null key (group order is not a
correctness property; pandas sorts keys, here first-seen order is used). -/
def summarize (rows : List TabRow) : List ((String × String) × Nat) :=
  (rows.filterMap summaryKey).dedup.map
    (fun k => (k, (rows.filterMap summaryKey).count k))

/-- Pagination loop body of `fetch_runs_for_repo`, with the remaining page
budget (`max_pages - page + 1`) as explicit fuel. The page oracle yields the
outcome of `get_json` on that page: `.error` for a raised `HttpError`,
`.ok none` for a falsy response body (`if not j: break`), and `.ok (some l)`
for a truthy body with `j.get("workflow_runs", []) = l`. -/
def fetch_runs_aux (pages : Nat → Except HttpError (Option (List Run)))
    (per_page : Nat) : Nat → Nat → Except HttpError (List Run × Nat)
  | _, 0 => .ok ([], 0)
  | page, fuel + 1 =>
    match pages page with
    | .error e => .error e
    | .ok none => .ok ([], 1)
    | .ok (some page_runs) =>
      if page_runs.length < per_page then .ok (page_runs, 1)
      else
        match fetch_runs_aux pages per_page (page + 1) fuel with
        | .error e => .error e
        | .ok (rest, n) => .ok (page_runs ++ rest, n + 1)

/-- Embedding of `fetch_runs_for_repo`: `for page in range(1, max_pages + 1)`,
accumulating `runs.extend(page_runs)`; returns the accumulated runs together
with the number of page requests issued. -/
def fetch_runs_for_repo (pages : Nat → Except HttpError (Option (List Run)))
    (per_page max_pages : Nat) : Except HttpError (List Run × Nat) :=
  fetch_runs_aux pages per_page 1 max_pages

/-- The three report artifacts `process_repo` writes, by content. -/
structure Artifacts where
  jsonRows : List ReportRow
  csvRows : List TabRow
  htmlSummary : List ((String × String) × Nat)
  htmlQueued : List TabRow
deriving DecidableEq

/-- Observable outcome of one `process_repo` invocation: whether the process
exits zero (an uncaught exception in `asyncio.run` exits non-zero), which
output files were written, and their contents. -/
structure ProcessOutcome where
  exitZero : Bool
  written : List String
  artifacts : Option Artifacts
deriving DecidableEq

/-- Embedding of `process_repo`: fetch runs (a raised `HttpError` propagates
out of `asyncio.run`, so nothing is written and the exit is non-zero), build
`jobs_map` and `rows`, then write `<prefix>.json`, `<prefix>.csv` and
`<prefix>.html` (summary table plus `df[df["status"]=="queued"].head(200)`). -/
def process_repo (owner repo : String)
    (pages : Nat → Except HttpError (Option (List Run)))
    (per_page max_pages : Nat)
    (fetchJobs : Nat → Except Unit (List Job))
    (out_stem : String) : ProcessOutcome :=
  match fetch_runs_for_repo pages per_page max_pages with
  | .error _ => { exitZero := false, written := [], artifacts := none }
  | .ok (runs, _) =>
    let jm := jobs_map runs fetchJobs
    let rows := assemble owner repo jm runs
    let tab := rows.map toTabularRecord
    { exitZero := true
      written := [out_stem ++ ".json", out_stem ++ ".csv", out_stem ++ ".html"]
      artifacts := some
        { jsonRows := rows
          csvRows := tab
          htmlSummary := summarize tab
          htmlQueued := (tab.filter (fun t => t.status == some "queued")).take 200 } }

/-- Claim C2: `classify` returns absent when `run.status` is not `"queued"`;
otherwise it returns `no_available_runner` when the job list is non-empty and
every job is queued with no runner assigned, else `runner_capacity` when some
job is queued with no runner assigned, else `unknown_or_concurrency`
(in particular for an empty job list). -/
theorem infer_queued_reason_spec (run : Run) (jobs : List Job) :
    (run.status ≠ some "queued" → infer_queued_reason run jobs = none)
    ∧ (run.status = some "queued" →
        ((jobs ≠ [] ∧ ∀ j ∈ jobs, j.status = some "queued" ∧ pyTruthyStr j.runner_name = false) →
            infer_queued_reason run jobs = some "no_available_runner")
        ∧ (¬(jobs ≠ [] ∧ ∀ j ∈ jobs, j.status = some "queued" ∧ pyTruthyStr j.runner_name = false) →
            (∃ j ∈ jobs, j.status = some "queued" ∧ pyTruthyStr j.runner_name = false) →
            infer_queued_reason run jobs = some "runner_capacity")
        ∧ (¬(∃ j ∈ jobs, j.status = some "queued" ∧ pyTruthyStr j.runner_name = false) →
            infer_queued_reason run jobs = some "unknown_or_concurrency")) := by
  constructor
  · intro h
    simp only [infer_queued_reason, beq_iff_eq, if_neg h]
  · intro h
    refine ⟨?_, ?_, ?_⟩
    · rintro ⟨hne, hall⟩
      have hisEmpty : jobs.isEmpty = false := by
        cases jobs with
        | nil => exact absurd rfl hne
        | cons a l => rfl
      have hall' : jobs.all awaitingJob = true := by
        rw [List.all_eq_true]
        intro j hj
        have := hall j hj
        simp [awaitingJob, this.1, this.2]
      simp [infer_queued_reason, h, hisEmpty, hall']
    · intro hnall hex
      obtain ⟨j, hj, hjq, hjr⟩ := hex
      have hne : jobs ≠ [] := by
        intro hnil; subst hnil; exact absurd hj (List.not_mem_nil j)
      have hisEmpty : jobs.isEmpty = false := by
        cases jobs with
        | nil => exact absurd rfl hne
        | cons a l => rfl
      have hany : jobs.any awaitingJob = true := by
        rw [List.any_eq_true]
        exact ⟨j, hj, by simp [awaitingJob, hjq, hjr]⟩
      have hnall' : jobs.all awaitingJob = false := by
        by_contra hc
        have hc' : jobs.all awaitingJob = true := by
          cases hb : jobs.all awaitingJob with
          | true => rfl
          | false => exact absurd hb hc
        refine hnall ⟨hne, ?_⟩
        intro j' hj'
        have := (List.all_eq_true.mp hc') j' hj'
        simp only [awaitingJob, Bool.and_eq_true, beq_iff_eq, Bool.not_eq_true'] at this
        exact this
      simp [infer_queued_reason, h, hisEmpty, hnall', hany]
    · intro hnex
      have hany : jobs.any awaitingJob = false := by
        by_contra hc
        have hc' : jobs.any awaitingJob = true := by
          cases hb : jobs.any awaitingJob with
          | true => rfl
          | false => exact absurd hb hc
        obtain ⟨j, hj, hja⟩ := List.any_eq_true.mp hc'
        simp only [awaitingJob, Bool.and_eq_true, beq_iff_eq, Bool.not_eq_true'] at hja
        exact hnex ⟨j, hj, hja.1, hja.2⟩
      cases jobs with
      | nil => simp [infer_queued_reason, h]
      | cons a l =>
        rw [List.any_cons, Bool.or_eq_false_iff] at hany
        simp [infer_queued_reason, h, List.all_cons, List.any_cons, hany.1, hany.2]

/-- Witness for C2 at concrete inputs: a queued run with an empty job list,
and a queued run whose only job is completed with a runner, both classify as
`unknown_or_concurrency`. -/
theorem infer_queued_reason_spec_witness :
    infer_queued_reason { status := some "queued" } [] = some "unknown_or_concurrency"
    ∧ infer_queued_reason { status := some "queued" }
        [{ status := some "completed", runner_name := some "r1" }] = some "unknown_or_concurrency" := by
  constructor
  · exact ((infer_queued_reason_spec { status := some "queued" } []).2 rfl).2.2 (by simp)
  · exact ((infer_queued_reason_spec { status := some "queued" }
      [{ status := some "completed", runner_name := some "r1" }]).2 rfl).2.2 (by simp [pyTruthyStr])


/-- Classifying with an empty job list depends on the run's status alone. -/
theorem infer_queued_reason_nil (r : Run) :
    infer_queued_reason r []
      = if r.status = some "queued" then some "unknown_or_concurrency" else none := by
  by_cases h : r.status = some "queued" <;> simp [infer_queued_reason, h]

/-- Claim C1: assemble produces exactly one ReportRow per input run, in input
order; a run with no enrichment entry still gets a row with jobs absent and a
reason code computed from the run's status alone. -/
theorem assemble_one_row_per_run (owner repo : String) (jm : List (Nat × List Job))
    (runs : List Run) :
    (assemble owner repo jm runs).length = runs.length
    ∧ ∀ (i : Nat) (h : i < runs.length) (h2 : i < (assemble owner repo jm runs).length),
        ((assemble owner repo jm runs).get ⟨i, h2⟩).workflow_run_id = (runs.get ⟨i, h⟩).id
        ∧ (dictGet jm (runs.get ⟨i, h⟩).id = none →
            ((assemble owner repo jm runs).get ⟨i, h2⟩).jobs = none
            ∧ ((assemble owner repo jm runs).get ⟨i, h2⟩).queued_reason_inferred
                = (if (runs.get ⟨i, h⟩).status = some "queued"
                   then some "unknown_or_concurrency" else none)) := by
  refine ⟨List.length_map _ _, ?_⟩
  intro i h h2
  simp only [List.get_eq_getElem]
  have hget : (assemble owner repo jm runs)[i] = buildRow owner repo jm runs[i] := by
    simp [assemble]
  rw [hget]
  refine ⟨rfl, ?_⟩
  intro hd
  constructor
  · simp [buildRow, hd]
  · simp [buildRow, hd, infer_queued_reason_nil]

/-- Witness for C1: a single queued run with no enrichment entry yields one
row with absent jobs and reason `unknown_or_concurrency`. -/
theorem assemble_one_row_per_run_witness :
    (assemble "octo" "hello" [] [{ id := 5, status := some "queued" }]).length = 1
    ∧ ((assemble "octo" "hello" [] [{ id := 5, status := some "queued" }]).get
        ⟨0, Nat.one_pos⟩).jobs = none
    ∧ ((assemble "octo" "hello" [] [{ id := 5, status := some "queued" }]).get
        ⟨0, Nat.one_pos⟩).queued_reason_inferred = some "unknown_or_concurrency" := by
  have h := assemble_one_row_per_run "octo" "hello" [] [{ id := 5, status := some "queued" }]
  refine ⟨h.1, ((h.2 0 Nat.one_pos Nat.one_pos).2 rfl).1, ?_⟩
  rw [((h.2 0 Nat.one_pos Nat.one_pos).2 rfl).2]
  simp

/-- Length of a filterMap equals the length of the filter keeping exactly the
elements on which the function fires. -/
theorem length_filterMap_eq_length_filter {α β : Type} (f : α → Option β) :
    ∀ l : List α, (l.filterMap f).length = (l.filter (fun x => (f x).isSome)).length := by
  intro l
  induction l with
  | nil => rfl
  | cons a l ih =>
    cases hfa : f a with
    | none => simp [List.filterMap_cons, List.filter_cons, hfa, ih]
    | some b => simp [List.filterMap_cons, List.filter_cons, hfa, ih]

/-- The boolean equality of the derived product instance agrees with the
decidable-equality one (instance bridge for the grouping keys). -/
theorem beqBridge (a k : String × String) :
    (@BEq.beq _ instBEqProd a k) = (@BEq.beq _ instBEqOfDecidableEq a k) := by
  obtain ⟨a1, a2⟩ := a
  obtain ⟨k1, k2⟩ := k
  show (a1 == k1 && a2 == k2) = decide ((a1, a2) = (k1, k2))
  by_cases h1 : a1 = k1 <;> by_cases h2 : a2 = k2 <;> simp [h1, h2]

/-- Counting with either boolean-equality instance gives the same result. -/
theorem countBridge (k : String × String) (l : List (String × String)) :
    @List.count _ instBEqProd k l = @List.count _ instBEqOfDecidableEq k l := by
  unfold List.count
  apply List.countP_congr
  intro a _
  rw [beqBridge a k]

/-- Claim C4 counterexample: a single tabular row whose conclusion is null is
dropped by the groupby (pandas `dropna=True` default), so the summary counts
sum to 0 while the row count is 1. -/
theorem summarize_counts_miss_null_conclusion :
    ((summarize [({ status := some "queued" } : TabRow)]).map
        (fun g : (String × String) × Nat => g.2)).sum
      ≠ ([({ status := some "queued" } : TabRow)]).length := by decide

/-- Claim C4 (amended): the summary counts sum to the number of tabular rows
whose status and conclusion are both non-null; rows with a null status or
conclusion are excluded from every group. -/
theorem summarize_counts_sum (rows : List TabRow) :
    ((summarize rows).map (fun g => g.2)).sum
      = (rows.filter (fun r => r.status.isSome && r.conclusion.isSome)).length := by
  have hkey : ∀ r : TabRow, (summaryKey r).isSome = (r.status.isSome && r.conclusion.isSome) := by
    intro r
    cases hs : r.status <;> cases hc : r.conclusion <;> simp [summaryKey, hs, hc]
  have h2 : rows.filter (fun r => (summaryKey r).isSome)
      = rows.filter (fun r => r.status.isSome && r.conclusion.isSome) :=
    List.filter_congr (fun x _ => hkey x)
  rw [← h2, ← length_filterMap_eq_length_filter]
  unfold summarize
  rw [List.map_map]
  have hcomp : ((fun g : (String × String) × Nat => g.2) ∘
        fun k => (k, List.count k (rows.filterMap summaryKey)))
      = fun k => List.count k (rows.filterMap summaryKey) := rfl
  rw [hcomp]
  simp only [countBridge]
  exact List.sum_map_count_dedup_eq_length (rows.filterMap summaryKey)

/-- Claim C8 counterexample: a row with a present-but-empty job list gets a
null jobs_count (the empty list is falsy in `len(r["jobs"]) if r["jobs"] else
None`), not 0. -/
theorem jobs_count_empty_list_is_null :
    (toTabularRecord { jobs := some [] }).jobs_count = none
    ∧ ({ jobs := some [] } : ReportRow).jobs ≠ none := by decide

/-- Claim C8 (amended): the tabular jobs_count equals the number of jobs when
the row's job list is present and non-empty, and is null when the job list is
absent or present but empty. -/
theorem jobs_count_spec (row : ReportRow) :
    ((toTabularRecord row).jobs_count = none ↔ row.jobs = none ∨ row.jobs = some [])
    ∧ (∀ js, row.jobs = some js → js ≠ [] →
        (toTabularRecord row).jobs_count = some js.length) := by
  constructor
  · cases hj : row.jobs with
    | none => simp [toTabularRecord, hj]
    | some js =>
      cases js with
      | nil => simp [toTabularRecord, hj]
      | cons a l => simp [toTabularRecord, hj]
  · intro js hjs hne
    cases js with
    | nil => exact absurd rfl hne
    | cons a l => simp [toTabularRecord, hjs]

/-- Witness for C8 (amended) at a concrete row with two jobs. -/
theorem jobs_count_spec_witness :
    (toTabularRecord
        { jobs := some [{ status := some "queued" }, { status := some "completed" }] }).jobs_count
      = some 2 :=
  (jobs_count_spec _).2 [{ status := some "queued" }, { status := some "completed" }] rfl
    (by decide)

/-- Claim C7: if the initial run-listing fetch fails the process exits
non-zero and writes none of the three artifacts; the per-run job-enrichment
outcome never affects the exit status. -/
theorem process_repo_exit_spec (owner repo : String)
    (pages : Nat → Except HttpError (Option (List Run))) (per_page max_pages : Nat)
    (f g : Nat → Except Unit (List Job)) (out_stem : String) :
    (∀ e, fetch_runs_for_repo pages per_page max_pages = .error e →
        (process_repo owner repo pages per_page max_pages f out_stem).exitZero = false
        ∧ (process_repo owner repo pages per_page max_pages f out_stem).written = [])
    ∧ (process_repo owner repo pages per_page max_pages f out_stem).exitZero
        = (process_repo owner repo pages per_page max_pages g out_stem).exitZero := by
  constructor
  · intro e he
    constructor <;> simp [process_repo, he]
  · cases hf : fetch_runs_for_repo pages per_page max_pages with
    | error e => simp [process_repo, hf]
    | ok p =>
      obtain ⟨runs, n⟩ := p
      simp [process_repo, hf]

/-- Witness for C7: a listing fetch that fails with HTTP 500 produces a
non-zero exit and an empty set of written artifacts. -/
theorem process_repo_exit_spec_witness :
    (process_repo "o" "r" (fun _ => .error { status := 500, body := "boom" }) 2 3
        (fun _ => .ok []) "out").exitZero = false
    ∧ (process_repo "o" "r" (fun _ => .error { status := 500, body := "boom" }) 2 3
        (fun _ => .ok []) "out").written = [] :=
  (process_repo_exit_spec "o" "r" (fun _ => .error { status := 500, body := "boom" }) 2 3
      (fun _ => .ok []) (fun _ => .ok []) "out").1 { status := 500, body := "boom" } rfl

/-- Unrolling of the pagination loop: starting at `page` with `fuel` pages of
budget left, if the next `j` pages are full (truthy, exactly `per_page` items)
and page `page + j` is falsy or short, the loop visits exactly `j + 1` pages
and accumulates their items in order. -/
theorem fetch_runs_aux_spec (pages : Nat → Except HttpError (Option (List Run)))
    (per_page : Nat) (items : Nat → List Run) :
    ∀ (j page fuel : Nat) (lastItems : List Run),
      j < fuel →
      (∀ p, page ≤ p → p < page + j →
          pages p = .ok (some (items p)) ∧ (items p).length = per_page) →
      ((pages (page + j) = .ok none ∧ lastItems = []) ∨
        (pages (page + j) = .ok (some lastItems) ∧ lastItems.length < per_page)) →
      fetch_runs_aux pages per_page page fuel
        = .ok ((((List.range' page j).map items).join) ++ lastItems, j + 1) := by
  intro j
  induction j with
  | zero =>
    intro page fuel lastItems hjf hfull hstop
    match fuel, hjf with
    | fuel + 1, _ =>
      cases hstop with
      | inl hcase =>
        obtain ⟨hp, hl⟩ := hcase
        subst hl
        simp only [Nat.add_zero] at hp
        simp [fetch_runs_aux, hp]
      | inr hcase =>
        obtain ⟨hp, hl⟩ := hcase
        simp only [Nat.add_zero] at hp
        simp [fetch_runs_aux, hp, hl]
  | succ j ih =>
    intro page fuel lastItems hjf hfull hstop
    match fuel, hjf with
    | fuel + 1, hjf =>
      have hpage : pages page = .ok (some (items page)) ∧ (items page).length = per_page :=
        hfull page (Nat.le_refl _) (by omega)
      have hnotlt : ¬ (items page).length < per_page := by
        rw [hpage.2]
        omega
      have hrec := ih (page + 1) fuel lastItems (by omega)
        (fun p hp1 hp2 => hfull p (by omega) (by omega))
        (by
          have : page + 1 + j = page + (j + 1) := by omega
          rw [this]
          exact hstop)
      simp [fetch_runs_aux, hpage.1, hnotlt, hrec, List.range'_succ, List.append_assoc]

/-- Claim C3: the paginator requests pages starting at 1 in order and stops at
the first page whose response is falsy or whose item count is strictly less
than `per_page`; with `j` full pages before that stop page, exactly `j + 1`
page requests are issued and the result is the in-order concatenation of all
fetched pages' items. -/
theorem fetch_runs_pagination_spec (pages : Nat → Except HttpError (Option (List Run)))
    (per_page max_pages j : Nat) (items : Nat → List Run) (lastItems : List Run)
    (hjm : j < max_pages)
    (hfull : ∀ p, 1 ≤ p → p < j + 1 →
        pages p = .ok (some (items p)) ∧ (items p).length = per_page)
    (hstop : (pages (j + 1) = .ok none ∧ lastItems = []) ∨
      (pages (j + 1) = .ok (some lastItems) ∧ lastItems.length < per_page)) :
    fetch_runs_for_repo pages per_page max_pages
      = .ok ((((List.range' 1 j).map items).join) ++ lastItems, j + 1) := by
  unfold fetch_runs_for_repo
  exact fetch_runs_aux_spec pages per_page items j 1 max_pages lastItems hjm
    (fun p hp1 hp2 => hfull p hp1 (by omega))
    (by
      have : 1 + j = j + 1 := by omega
      rw [this]
      exact hstop)

/-- Witness for C3: a 2-page listing (page 1 full with 2 items at per_page 2,
page 2 short with 1 item, max_pages 3) issues exactly 2 requests and returns
the 3 items in order. -/
theorem fetch_runs_pagination_spec_witness :
    fetch_runs_for_repo
        (fun p => if p = 1 then .ok (some [{ id := 1 }, { id := 2 }])
                  else if p = 2 then .ok (some [{ id := 3 }]) else .ok none)
        2 3
      = .ok ([{ id := 1 }, { id := 2 }, { id := 3 }], 2)
    ∧ ([({ id := 1 } : Run), { id := 2 }, { id := 3 }]).length = 2 + 1 := by
  constructor
  · have h := fetch_runs_pagination_spec
      (fun p => if p = 1 then .ok (some [{ id := 1 }, { id := 2 }])
                else if p = 2 then .ok (some [{ id := 3 }]) else .ok none)
      2 3 1
      (fun p => if p = 1 then [{ id := 1 }, { id := 2 }] else [{ id := 3 }])
      [{ id := 3 }]
      (by omega)
      (by
        intro p hp1 hp2
        have hp : p = 1 := by omega
        subst hp
        exact ⟨rfl, rfl⟩)
      (Or.inr ⟨rfl, by decide⟩)
    exact h.trans rfl
  · rfl


/-- Membership in the enrichment mapping: an entry `(rid, js)` exists exactly
when some selected (queued/in-progress) run has id `rid` and the job fetch for
`rid` succeeded with `js`. -/
theorem mem_jobs_map_iff (runs : List Run) (f : Nat → Except Unit (List Job))
    (rid : Nat) (js : List Job) :
    (rid, js) ∈ jobs_map runs f ↔
      (∃ r ∈ detail_runs runs, r.id = rid) ∧ f rid = .ok js := by
  unfold jobs_map
  rw [List.mem_filterMap]
  constructor
  · rintro ⟨r, hr, hfr⟩
    cases hf : f r.id with
    | ok js2 =>
      rw [hf] at hfr
      simp only [Option.some.injEq, Prod.mk.injEq] at hfr
      obtain ⟨hid, hjs⟩ := hfr
      subst hjs
      exact ⟨⟨r, hr, hid⟩, hid ▸ hf⟩
    | error e =>
      rw [hf] at hfr
      exact absurd hfr (by simp)
  · rintro ⟨⟨r, hr, hid⟩, hfr⟩
    refine ⟨r, hr, ?_⟩
    rw [hid, hfr]

/-- A dict lookup hit is a member of the insertion sequence. -/
theorem dictGet_eq_some_mem (m : List (Nat × List Job)) (k : Nat) (v : List Job)
    (h : dictGet m k = some v) : (k, v) ∈ m := by
  unfold dictGet at h
  cases hf : m.reverse.find? (fun p => p.1 == k) with
  | none => rw [hf] at h; exact absurd h (by simp)
  | some p =>
    rw [hf] at h
    simp only [Option.map_some'] at h
    have hmem : p ∈ m.reverse := List.mem_of_find?_eq_some hf
    have hpred := List.find?_some hf
    rw [List.mem_reverse] at hmem
    have hk : p.1 = k := by simpa using hpred
    obtain ⟨p1, p2⟩ := p
    simp only [Option.some.injEq] at h
    simp only at hk
    subst hk
    subst h
    exact hmem

/-- A dict lookup misses exactly when no entry has the key. -/
theorem dictGet_eq_none_iff (m : List (Nat × List Job)) (k : Nat) :
    dictGet m k = none ↔ ∀ p ∈ m, p.1 ≠ k := by
  unfold dictGet
  rw [Option.map_eq_none', List.find?_eq_none]
  constructor
  · intro h p hp
    have := h p (List.mem_reverse.mpr hp)
    simpa using this
  · intro h p hp
    have := h p (List.mem_reverse.mp hp)
    simpa using this

/-- A dict lookup hits when an entry with the key exists and every entry with
the key carries the same value. -/
theorem dictGet_eq_some_of_mem (m : List (Nat × List Job)) (k : Nat) (v : List Job)
    (hmem : (k, v) ∈ m) (huniq : ∀ p ∈ m, p.1 = k → p.2 = v) :
    dictGet m k = some v := by
  unfold dictGet
  have hex : ∃ p ∈ m.reverse, (fun p : Nat × List Job => p.1 == k) p =
      true := ⟨(k, v), List.mem_reverse.mpr hmem, by simp⟩
  obtain ⟨p, hfp⟩ := Option.isSome_iff_exists.mp (List.find?_isSome.mpr hex)
  have hpmem : p ∈ m := List.mem_reverse.mp (List.mem_of_find?_eq_some hfp)
  have hpk : p.1 = k := by simpa using List.find?_some hfp
  rw [hfp]
  simp only [Option.map_some']
  rw [huniq p hpmem hpk]

/-- Full characterization of a lookup hit in the enrichment mapping. -/
theorem dictGet_jobs_map_iff (runs : List Run) (f : Nat → Except Unit (List Job))
    (rid : Nat) (js : List Job) :
    dictGet (jobs_map runs f) rid = some js ↔
      (∃ r ∈ detail_runs runs, r.id = rid) ∧ f rid = .ok js := by
  constructor
  · intro h
    exact (mem_jobs_map_iff runs f rid js).mp (dictGet_eq_some_mem _ _ _ h)
  · intro h
    apply dictGet_eq_some_of_mem
    · exact (mem_jobs_map_iff runs f rid js).mpr h
    · intro p hp hpk
      obtain ⟨p1, p2⟩ := p
      simp only at hpk
      subst hpk
      have := (mem_jobs_map_iff runs f p1 p2).mp hp
      have hok := this.2
      rw [h.2] at hok
      simpa using hok.symm

/-- Full characterization of a lookup miss in the enrichment mapping. -/
theorem dictGet_jobs_map_eq_none_iff (runs : List Run)
    (f : Nat → Except Unit (List Job)) (rid : Nat) :
    dictGet (jobs_map runs f) rid = none ↔
      (∀ r ∈ detail_runs runs, r.id ≠ rid) ∨ f rid = .error () := by
  rw [dictGet_eq_none_iff]
  constructor
  · intro h
    by_cases hsel : ∃ r ∈ detail_runs runs, r.id = rid
    · obtain ⟨r, hr, hid⟩ := hsel
      cases hf : f rid with
      | ok js =>
        exact absurd rfl
          (h (rid, js) ((mem_jobs_map_iff runs f rid js).mpr ⟨⟨r, hr, hid⟩, hf⟩))
      | error e =>
        cases e
        exact Or.inr rfl
    · push_neg at hsel
      exact Or.inl hsel
  · intro h p hp
    obtain ⟨p1, p2⟩ := p
    have hchar := (mem_jobs_map_iff runs f p1 p2).mp hp
    simp only
    intro hk
    subst hk
    cases h with
    | inl hnone =>
      obtain ⟨r, hr, hid⟩ := hchar.1
      exact hnone r hr hid
    | inr herr =>
      rw [herr] at hchar
      exact absurd hchar.2 (by simp)

/-- Claim C5: a failure fetching jobs for one run leaves every other run's
mapping entry unchanged and does not abort the batch. The mapping has exactly
one entry per selected run whose fetch succeeded (characterized by lookup),
no entry for failed or unselected runs, and the failed run's downstream row
has absent jobs with the reason computed as if its job list were empty. -/
theorem enrichment_failure_isolated (owner repo : String) (runs : List Run)
    (f g : Nat → Except Unit (List Job)) (bad : Nat)
    (hgbad : g bad = .error ())
    (hagree : ∀ rid, rid ≠ bad → g rid = f rid) :
    (∀ rid js, dictGet (jobs_map runs f) rid = some js ↔
        ((∃ r ∈ detail_runs runs, r.id = rid) ∧ f rid = .ok js))
    ∧ (∀ rid, (∀ r ∈ detail_runs runs, r.id ≠ rid) →
        dictGet (jobs_map runs f) rid = none)
    ∧ (∀ rid, rid ≠ bad →
        dictGet (jobs_map runs g) rid = dictGet (jobs_map runs f) rid)
    ∧ dictGet (jobs_map runs g) bad = none
    ∧ (assemble owner repo (jobs_map runs g) runs).length = runs.length
    ∧ (∀ (i : Nat) (h : i < runs.length)
          (h2 : i < (assemble owner repo (jobs_map runs g) runs).length),
        (runs.get ⟨i, h⟩).id = bad →
          ((assemble owner repo (jobs_map runs g) runs).get ⟨i, h2⟩).jobs = none
          ∧ ((assemble owner repo (jobs_map runs g) runs).get
                ⟨i, h2⟩).queued_reason_inferred
              = infer_queued_reason (runs.get ⟨i, h⟩) []) := by
  have hbadnone : dictGet (jobs_map runs g) bad = none :=
    (dictGet_jobs_map_eq_none_iff runs g bad).mpr (Or.inr hgbad)
  refine ⟨dictGet_jobs_map_iff runs f, ?_, ?_, hbadnone, List.length_map _ _, ?_⟩
  · intro rid hnone
    exact (dictGet_jobs_map_eq_none_iff runs f rid).mpr (Or.inl hnone)
  · intro rid hne
    cases hd : dictGet (jobs_map runs f) rid with
    | some js =>
      have hc := (dictGet_jobs_map_iff runs f rid js).mp hd
      exact (dictGet_jobs_map_iff runs g rid js).mpr ⟨hc.1, (hagree rid hne).trans hc.2⟩
    | none =>
      rw [dictGet_jobs_map_eq_none_iff] at hd ⊢
      cases hd with
      | inl hnone => exact Or.inl hnone
      | inr herr => exact Or.inr ((hagree rid hne).trans herr)
  · intro i h h2 hid
    simp only [List.get_eq_getElem]
    have hget : (assemble owner repo (jobs_map runs g) runs)[i]
        = buildRow owner repo (jobs_map runs g) runs[i] := by
      simp [assemble]
    have hd : dictGet (jobs_map runs g) runs[i].id = none := by
      simp only [List.get_eq_getElem] at hid
      rw [hid]
      exact hbadnone
    rw [hget]
    exact ⟨by simp [buildRow, hd], by simp [buildRow, hd]⟩

/-- Witness for C5: two queued runs; the fetch for run 2 raises under `g`
while run 1 is unaffected, run 2's entry is absent, and the row count is
still 2. -/
theorem enrichment_failure_isolated_witness :
    (dictGet
        (jobs_map [{ id := 1, status := some "queued" }, { id := 2, status := some "queued" }]
          (fun rid => if rid = 2 then .error () else .ok [{ status := some "queued" }]))
        1
      = dictGet
        (jobs_map [{ id := 1, status := some "queued" }, { id := 2, status := some "queued" }]
          (fun _ => .ok [{ status := some "queued" }]))
        1)
    ∧ dictGet
        (jobs_map [{ id := 1, status := some "queued" }, { id := 2, status := some "queued" }]
          (fun rid => if rid = 2 then .error () else .ok [{ status := some "queued" }]))
        2
      = none
    ∧ (assemble "octo" "hello"
        (jobs_map [{ id := 1, status := some "queued" }, { id := 2, status := some "queued" }]
          (fun rid => if rid = 2 then .error () else .ok [{ status := some "queued" }]))
        [{ id := 1, status := some "queued" }, { id := 2, status := some "queued" }]).length
      = 2 := by
  have h := enrichment_failure_isolated "octo" "hello"
    [{ id := 1, status := some "queued" }, { id := 2, status := some "queued" }]
    (fun _ => .ok [{ status := some "queued" }])
    (fun rid => if rid = 2 then .error () else .ok [{ status := some "queued" }])
    2 rfl (fun rid hne => by simp [hne])
  exact ⟨h.2.2.1 1 (by decide), h.2.2.2.1, h.2.2.2.2.1.trans rfl⟩


/-- Substring containment on character lists (Python `pat in s`). -/
def containsSub (pat : List Char) : List Char → Bool
  | [] => pat.isPrefixOf ([] : List Char)
  | c :: rest => pat.isPrefixOf (c :: rest) || containsSub pat rest

/-- The rate-limit test of `get_json`: `"rate limit" in (r.text or "").lower()`. -/
def rateLimitIndicated (body : String) : Bool :=
  containsSub "rate limit".data (body.data.map Char.toLower)

/-- httpx `Response.is_success` (2xx); `raise_for_status()` raises for every
other status. -/
def is_success (status : Nat) : Bool := 200 ≤ status && status < 300

/-- One HTTP response as `get_json` observes it: status code, body text
(`r.text or ""`), the parsed `X-RateLimit-Reset` header (`none` when the
header is absent), and the parsed JSON payload `r.json()`. -/
structure HttpResponse (α : Type) where
  status : Nat
  body : String
  reset : Option Int
  payload : α
deriving DecidableEq

/-- Result of a `get_json` call: the parsed payload, a raised `HttpError`
(status and body), or recursion past the modelled attempt horizon (the source
imposes no retry cap). -/
inductive FetchOutcome (α : Type) where
  | ok (v : α)
  | httpError (status : Nat) (body : String)
  | diverged
deriving DecidableEq

/-- Trace of one `get_json` call: its result, every `asyncio.sleep` duration
in order, and every `(url, params)` request issued in order. -/
structure GetJsonTrace (α π : Type) where
  result : FetchOutcome α
  sleeps : List Int
  requests : List (String × π)
deriving DecidableEq

/-- Embedding of `get_json(client, url, params)`: attempt `k` issues
`(url, params)` and observes `resps k`, with `times k` the value of
`int(time.time())` at that attempt. A 403 whose body contains "rate limit"
and which carries a reset header sleeps `max(5, int(reset) - now + 5)`
seconds, then retries the identical request recursively; every other
response reaches `r.raise_for_status()` and, if it survives, `r.json()`. -/
def get_json {α π : Type} (url : String) (params : π)
    (resps : Nat → HttpResponse α) (times : Nat → Int) :
    Nat → Nat → GetJsonTrace α π
  | _, 0 => { result := .diverged, sleeps := [], requests := [] }
  | k, fuel + 1 =>
    let r := resps k
    if r.status == 403 && rateLimitIndicated r.body then
      match r.reset with
      | some reset =>
        let rest := get_json url params resps times (k + 1) fuel
        { result := rest.result
          sleeps := max 5 (reset - times k + 5) :: rest.sleeps
          requests := (url, params) :: rest.requests }
      | none =>
        { result := if is_success r.status then .ok r.payload
                    else .httpError r.status r.body
          sleeps := []
          requests := [(url, params)] }
    else
      { result := if is_success r.status then .ok r.payload
                  else .httpError r.status r.body
        sleeps := []
        requests := [(url, params)] }

/-- Claim C6: on a 403 whose body indicates a rate limit and which carries a
reset header with value `t`, `get_json` sleeps exactly `max(5, t - now + 5)`
seconds and then retries the identical request (same url and params) exactly
once recursively; on any other non-success response it fails with an
`HttpError` carrying status and body, with no sleep and no retry. -/
theorem get_json_rate_limit_spec {α π : Type} (url : String) (params : π)
    (resps : Nat → HttpResponse α) (times : Nat → Int) (fuel : Nat) :
    ((resps 0).status = 403 → rateLimitIndicated (resps 0).body = true →
      ∀ t, (resps 0).reset = some t →
        get_json url params resps times 0 (fuel + 1)
          = { result := (get_json url params resps times 1 fuel).result
              sleeps := max 5 (t - times 0 + 5)
                  :: (get_json url params resps times 1 fuel).sleeps
              requests := (url, params)
                  :: (get_json url params resps times 1 fuel).requests })
    ∧ (¬((resps 0).status = 403 ∧ rateLimitIndicated (resps 0).body = true) →
        is_success (resps 0).status = false →
        get_json url params resps times 0 (fuel + 1)
          = { result := .httpError (resps 0).status (resps 0).body
              sleeps := []
              requests := [(url, params)] }) := by
  constructor
  · intro h403 hbody t hreset
    simp [get_json, h403, hbody, hreset]
  · intro hcond hns
    have hb : ((resps 0).status == 403 && rateLimitIndicated (resps 0).body) = false := by
      cases hb : ((resps 0).status == 403 && rateLimitIndicated (resps 0).body) with
      | false => rfl
      | true =>
        rw [Bool.and_eq_true, beq_iff_eq] at hb
        exact absurd hb hcond
    simp [get_json, hb, hns]

/-- Witness for C6: a first response of 403 "API rate limit exceeded" with
reset 100 at now 90 sleeps 15 seconds and retries once, after which a 200
response succeeds; both requests use the same url and params. -/
theorem get_json_rate_limit_spec_witness :
    get_json "u" 7
        (fun k => if k = 0
          then { status := 403, body := "API rate limit exceeded",
                 reset := some 100, payload := (0 : Nat) }
          else { status := 200, body := "", reset := none, payload := 42 })
        (fun _ => 90) 0 2
      = { result := .ok 42, sleeps := [15], requests := [("u", 7), ("u", 7)] } := by
  have h := (get_json_rate_limit_spec "u" 7
    (fun k => if k = 0
      then { status := 403, body := "API rate limit exceeded",
             reset := some 100, payload := (0 : Nat) }
      else { status := 200, body := "", reset := none, payload := 42 })
    (fun _ => 90) 1).1 rfl (by decide) 100 rfl
  exact h.trans (by decide)

/-- Claim C10: a 403 whose body indicates a rate limit but which carries no
reset header does not sleep or retry at all: `get_json` falls through to
`raise_for_status()` and raises the 403 immediately, exactly as for any other
non-success status. -/
theorem get_json_no_reset_spec {α π : Type} (url : String) (params : π)
    (resps : Nat → HttpResponse α) (times : Nat → Int) (fuel : Nat)
    (h403 : (resps 0).status = 403)
    (hbody : rateLimitIndicated (resps 0).body = true)
    (hreset : (resps 0).reset = none) :
    get_json url params resps times 0 (fuel + 1)
      = { result := .httpError 403 (resps 0).body
          sleeps := []
          requests := [(url, params)] } := by
  have hns : is_success 403 = false := by decide
  simp [get_json, h403, hbody, hreset, hns]

/-- Witness for C10: a 403 rate-limit response with no reset header raises
immediately with one request and no sleeps. -/
theorem get_json_no_reset_spec_witness :
    get_json "u" 7
        (fun _ => { status := 403, body := "rate limit exceeded",
                    reset := none, payload := (0 : Nat) })
        (fun _ => 0) 0 5
      = { result := .httpError 403 "rate limit exceeded",
          sleeps := [], requests := [("u", (7 : Nat))] } :=
  get_json_no_reset_spec "u" 7
    (fun _ => { status := 403, body := "rate limit exceeded",
                reset := none, payload := (0 : Nat) })
    (fun _ => 0) 4 rfl (by decide) rfl


end FetchRuns
